import Mathlib

/-!
Verification of the library-management store and its command layer.

The definitions below are a shallow embedding of the Go sources
(`library.go` and the command/invocation file).  Conventions:

* Go `map[int]*X` becomes an association list `List (Int × X)`; the Go
  runtime guarantees unique keys, here key-uniqueness is part of the
  reachable-state invariant `Inv`.  Go map iteration order is
  unspecified; the embedding iterates the association list in insertion
  order, one of the admissible orders.
* Every mutating store method becomes a function
  `Library → ... → Library × Option LibError`: the first component is
  the state of the store after the call (Go mutates the receiver in
  place, so a store state always exists after a call), the second is the
  returned error.  Each Go `return err` before any mutation is
  translated as returning the input store unchanged together with the
  error, so failure-atomicity is a provable property, not an artifact.
* Go `int` is modelled as `Int` (no claim under consideration involves
  64-bit overflow).
* JSON documents are modelled by the inductive `Json`; Go's
  `encoding/json` behaviours that the command layer relies on (missing
  field → zero value, `null` → zero value, type mismatch → error,
  later duplicate key wins) are reproduced in the field decoders.
  (Go additionally matches field names case-insensitively as a
  fallback; the command log only ever uses the exact lower-case tags,
  which is what the decoders here match.)
-/

/-- Key-based lookup in an association list, mirroring Go `m[k]` (comma-ok
form: `none` when the key is absent). -/
def lookupA {α : Type} : List (Int × α) → Int → Option α
  | [], _ => none
  | e :: rest, k => if e.1 = k then some e.2 else lookupA rest k

/-- Go `m[k]` on a `map[int][]*Checkout`: a missing key reads as the empty
slice. -/
def getD {α : Type} (m : List (Int × List α)) (k : Int) : List α :=
  (lookupA m k).getD []

/-- Go `m[k] = v`: overwrite the value at an existing key, otherwise add the
binding (new keys appear at the end, the insertion-order convention of the
embedding). -/
def setA {α : Type} (m : List (Int × α)) (k : Int) (v : α) : List (Int × α) :=
  if (lookupA m k).isSome then
    m.map (fun e => if e.1 = k then (k, v) else e)
  else
    m ++ [(k, v)]

/-- The keys of an association list are pairwise distinct (always true of a
Go map; an invariant of reachable stores here). -/
def keysNodup {α : Type} (m : List (Int × α)) : Prop :=
  (m.map Prod.fst).Nodup

/-- Struct `Book` from `library.go`. -/
structure Book where
  ID : Int
  Name : String
  Count : Int
deriving DecidableEq, Repr

/-- Struct `Account` from `library.go`. -/
structure Account where
  ID : Int
  Name : String
deriving DecidableEq, Repr

/-- Struct `Checkout` from `library.go`. -/
structure Checkout where
  BookID : Int
  AccountID : Int
deriving DecidableEq, Repr

/-- Struct `Library` from `library.go`: the catalog, the accounts, and the two
derived checkout indices.  The `sync.RWMutex` only serialises calls and has
no behavioural content in a sequential model. -/
structure Library where
  books : List (Int × Book)
  accounts : List (Int × Account)
  checkoutsByAccount : List (Int × List Checkout)
  checkoutsByBook : List (Int × List Checkout)
deriving DecidableEq, Repr

/-- The distinct error values produced by the store operations: the three
sentinel errors `ErrBookNotExist`, `ErrAccountNotExist`,
`ErrCheckoutNotExist`, and one constructor per distinct `fmt.Errorf` site.
(The spec's taxonomy groups `cannotAddNegativeCopies`,
`cannotRemoveNegativeCopies` and `cannotRemoveMoreThanExist` under
`InvalidArgument`.) -/
inductive LibError where
  | bookAlreadyExists
  | cannotAddNegativeCopies
  | bookNotExist
  | cannotRemoveNegativeCopies
  | cannotRemoveMoreThanExist
  | insufficientAvailableCopies
  | accountAlreadyExists
  | accountNotExist
  | checkoutLimitExceeded
  | duplicateCheckout
  | checkoutNotExist
deriving DecidableEq, Repr

/-- Function `New` from `library.go`: the empty store. -/
def LibNew : Library :=
  { books := [], accounts := [], checkoutsByAccount := [], checkoutsByBook := [] }

/-- Method `Library.AddBook`: duplicate-id check first, then the negative-count
check, then insert. -/
def AddBook (l : Library) (id : Int) (name : String) (count : Int) :
    Library × Option LibError :=
  if (lookupA l.books id).isSome then
    (l, some .bookAlreadyExists)
  else if count < 0 then
    (l, some .cannotAddNegativeCopies)
  else
    ({ l with books := setA l.books id { ID := id, Name := name, Count := count } }, none)

/-- Method `Library.AddCopies`. -/
def AddCopies (l : Library) (id count : Int) : Library × Option LibError :=
  match lookupA l.books id with
  | none => (l, some .bookNotExist)
  | some book =>
    if count < 0 then
      (l, some .cannotAddNegativeCopies)
    else
      ({ l with books := setA l.books id { book with Count := book.Count + count } }, none)

/-- Method `Library.RemoveCopies`: existence, negative count, more-than-exist, and
availability (`Count` minus live checkouts of the book) checks, in source
order. -/
def RemoveCopies (l : Library) (id count : Int) : Library × Option LibError :=
  match lookupA l.books id with
  | none => (l, some .bookNotExist)
  | some book =>
    if count < 0 then
      (l, some .cannotRemoveNegativeCopies)
    else if book.Count < count then
      (l, some .cannotRemoveMoreThanExist)
    else if book.Count - ((getD l.checkoutsByBook book.ID).length : Int) < count then
      (l, some .insufficientAvailableCopies)
    else
      ({ l with books := setA l.books id { book with Count := book.Count - count } }, none)

/-- Method `Library.CreateAccount`. -/
def CreateAccount (l : Library) (id : Int) (name : String) :
    Library × Option LibError :=
  if (lookupA l.accounts id).isSome then
    (l, some .accountAlreadyExists)
  else
    ({ l with accounts := setA l.accounts id { ID := id, Name := name } }, none)

/-- The pair test shared by `CheckoutBook`'s duplicate scan and
`ReturnBook`'s `matchCheckout` closure. -/
def matchCheckout (accountID bookID : Int) (c : Checkout) : Bool :=
  c.AccountID == accountID && c.BookID == bookID

/-- Method `Library.CheckoutBook`: account existence, book existence, the 4-checkout
limit, and the duplicate-pair scan, in source order; on success the new
checkout is appended to both indices.  (Note: no availability check against
`Book.Count`.) -/
def CheckoutBook (l : Library) (accountID bookID : Int) :
    Library × Option LibError :=
  match lookupA l.accounts accountID with
  | none => (l, some .accountNotExist)
  | some account =>
    match lookupA l.books bookID with
    | none => (l, some .bookNotExist)
    | some book =>
      if 4 ≤ (getD l.checkoutsByAccount account.ID).length then
        (l, some .checkoutLimitExceeded)
      else if (getD l.checkoutsByAccount account.ID).any (matchCheckout account.ID book.ID) then
        (l, some .duplicateCheckout)
      else
        ({ l with
            checkoutsByAccount :=
              setA l.checkoutsByAccount account.ID
                (getD l.checkoutsByAccount account.ID ++
                  [{ AccountID := account.ID, BookID := book.ID }]),
            checkoutsByBook :=
              setA l.checkoutsByBook book.ID
                (getD l.checkoutsByBook book.ID ++
                  [{ AccountID := account.ID, BookID := book.ID }]) }, none)

/-- Method `Library.ReturnBook`: account and book existence, then the
`slices.ContainsFunc` test, then `slices.DeleteFunc` on both indices
(remove every checkout matching the pair). -/
def ReturnBook (l : Library) (accountID bookID : Int) :
    Library × Option LibError :=
  match lookupA l.accounts accountID with
  | none => (l, some .accountNotExist)
  | some account =>
    match lookupA l.books bookID with
    | none => (l, some .bookNotExist)
    | some book =>
      if !(getD l.checkoutsByAccount account.ID).any (matchCheckout account.ID book.ID) then
        (l, some .checkoutNotExist)
      else
        ({ l with
            checkoutsByAccount :=
              setA l.checkoutsByAccount account.ID
                ((getD l.checkoutsByAccount account.ID).filter
                  (fun c => !matchCheckout account.ID book.ID c)),
            checkoutsByBook :=
              setA l.checkoutsByBook book.ID
                ((getD l.checkoutsByBook book.ID).filter
                  (fun c => !matchCheckout account.ID book.ID c)) }, none)

/-- The closed set of command variants (`AddBook` … `PrintAccounts` argument
structs together with the dispatch tags of `Invocation.Exec`). -/
inductive Cmd where
  | addBook (id : Int) (name : String) (count : Int)
  | addCopies (id : Int) (count : Int)
  | removeCopies (id : Int) (count : Int)
  | createAccount (id : Int) (name : String)
  | checkoutBook (accountID : Int) (bookID : Int)
  | returnBook (accountID : Int) (bookID : Int)
  | printCatalog
  | printAccounts
deriving DecidableEq, Repr

/-- Method `Invocation.Exec`: dispatch a decoded command to the matching store
operation.  The two print commands only read the store.  (The narration
string `Invocation.Output` is not modelled; no claim refers to it.) -/
def execCmd (l : Library) : Cmd → Library × Option LibError
  | .addBook id name count => AddBook l id name count
  | .addCopies id count => AddCopies l id count
  | .removeCopies id count => RemoveCopies l id count
  | .createAccount id name => CreateAccount l id name
  | .checkoutBook accountID bookID => CheckoutBook l accountID bookID
  | .returnBook accountID bookID => ReturnBook l accountID bookID
  | .printCatalog => (l, none)
  | .printAccounts => (l, none)

/-- State of the store after a call, whether or not it returned an error
(Go mutates the receiver; a failed call leaves it as it was). -/
def step (l : Library) (c : Cmd) : Library :=
  (execCmd l c).1

/-- Apply a sequence of commands to the store, keeping going after
failures. -/
def run (l : Library) (cs : List Cmd) : Library :=
  cs.foldl step l

/-- Apply a sequence of commands, halting with the first error
(the replay discipline of `Library.Import`). -/
def runE (l : Library) : List Cmd → Except LibError Library
  | [] => .ok l
  | c :: rest =>
    match execCmd l c with
    | (_, some e) => .error e
    | (l', none) => runE l' rest

/-- A store state that some command sequence produces from the empty store.
Failed operations leave the state unchanged, so this is exactly the set of
states seen "after every successful operation". -/
def Reachable (l : Library) : Prop :=
  ∃ cs : List Cmd, run LibNew cs = l

/-- JSON documents, as far as the command layer's wire format needs them
(numbers restricted to integers: the eight command payloads carry only
`int` and `string` fields). -/
inductive Json where
  | null
  | bool (b : Bool)
  | num (n : Int)
  | str (s : String)
  | arr (elems : List Json)
  | obj (fields : List (String × Json))

/-- Wire token of each command variant (the `name` field written by
`Invocation.MarshalJSON`). -/
def cmdName : Cmd → String
  | .addBook _ _ _ => "ADD_BOOK"
  | .addCopies _ _ => "ADD_COPIES"
  | .removeCopies _ _ => "REMOVE_COPIES"
  | .createAccount _ _ => "CREATE_ACCOUNT"
  | .checkoutBook _ _ => "CHECKOUT_BOOK"
  | .returnBook _ _ => "RETURN_BOOK"
  | .printCatalog => "PRINT_CATALOG"
  | .printAccounts => "PRINT_ACCOUNTS"

/-- Result of `json.Marshal` of a command's argument struct: fields in declaration
order, using the struct tags as keys. -/
def encodeArgs : Cmd → Json
  | .addBook id name count => .obj [("id", .num id), ("name", .str name), ("count", .num count)]
  | .addCopies id count => .obj [("id", .num id), ("count", .num count)]
  | .removeCopies id count => .obj [("id", .num id), ("count", .num count)]
  | .createAccount id name => .obj [("id", .num id), ("name", .str name)]
  | .checkoutBook accountID bookID => .obj [("accountId", .num accountID), ("bookId", .num bookID)]
  | .returnBook accountID bookID => .obj [("accountId", .num accountID), ("bookId", .num bookID)]
  | .printCatalog => .obj []
  | .printAccounts => .obj []

/-- Method `Invocation.MarshalJSON`: the two-field record
`{"name": token, "arguments": payload}`. -/
def encodeInvocation (c : Cmd) : Json :=
  .obj [("name", .str (cmdName c)), ("arguments", encodeArgs c)]

/-- Decode-time failures: the `unmarshal: unknown command type` error for an
unrecognized discriminator, and the `encoding/json` type errors for a
payload whose shape does not match the selected struct. -/
inductive DecodeError where
  | unknownCommand (name : String)
  | malformedPayload
deriving DecidableEq, Repr

/-- Reading a field of a JSON object the way Go's decoder does: scan the
pairs in order, a later duplicate key overwriting an earlier one. -/
def getField (fields : List (String × Json)) (key : String) : Option Json :=
  fields.foldl (fun acc e => if e.1 = key then some e.2 else acc) none

/-- Decode an `int`-tagged struct field: absent or `null` leaves the zero
value, a number is taken as is, anything else is a type error. -/
def intField (fields : List (String × Json)) (key : String) : Except DecodeError Int :=
  match getField fields key with
  | none => .ok 0
  | some (.num n) => .ok n
  | some .null => .ok 0
  | some _ => .error .malformedPayload

/-- Decode a `string`-tagged struct field, same conventions as `intField`. -/
def strField (fields : List (String × Json)) (key : String) : Except DecodeError String :=
  match getField fields key with
  | none => .ok ""
  | some (.str s) => .ok s
  | some .null => .ok ""
  | some _ => .error .malformedPayload

/-- Result of `json.Unmarshal` of an `AddBook` payload. -/
def decodeAddBookArgs : Option Json → Except DecodeError Cmd
  | some (.obj fields) => do
    let id ← intField fields "id"
    let name ← strField fields "name"
    let count ← intField fields "count"
    pure (.addBook id name count)
  | some .null => .ok (.addBook 0 "" 0)
  | some _ => .error .malformedPayload
  | none => .error .malformedPayload

/-- Result of `json.Unmarshal` of an `AddCopies` payload. -/
def decodeAddCopiesArgs : Option Json → Except DecodeError Cmd
  | some (.obj fields) => do
    let id ← intField fields "id"
    let count ← intField fields "count"
    pure (.addCopies id count)
  | some .null => .ok (.addCopies 0 0)
  | some _ => .error .malformedPayload
  | none => .error .malformedPayload

/-- Result of `json.Unmarshal` of a `RemoveCopies` payload. -/
def decodeRemoveCopiesArgs : Option Json → Except DecodeError Cmd
  | some (.obj fields) => do
    let id ← intField fields "id"
    let count ← intField fields "count"
    pure (.removeCopies id count)
  | some .null => .ok (.removeCopies 0 0)
  | some _ => .error .malformedPayload
  | none => .error .malformedPayload

/-- Result of `json.Unmarshal` of a `CreateAccount` payload. -/
def decodeCreateAccountArgs : Option Json → Except DecodeError Cmd
  | some (.obj fields) => do
    let id ← intField fields "id"
    let name ← strField fields "name"
    pure (.createAccount id name)
  | some .null => .ok (.createAccount 0 "")
  | some _ => .error .malformedPayload
  | none => .error .malformedPayload

/-- Result of `json.Unmarshal` of a `CheckoutBook` payload. -/
def decodeCheckoutBookArgs : Option Json → Except DecodeError Cmd
  | some (.obj fields) => do
    let accountID ← intField fields "accountId"
    let bookID ← intField fields "bookId"
    pure (.checkoutBook accountID bookID)
  | some .null => .ok (.checkoutBook 0 0)
  | some _ => .error .malformedPayload
  | none => .error .malformedPayload

/-- Result of `json.Unmarshal` of a `ReturnBook` payload. -/
def decodeReturnBookArgs : Option Json → Except DecodeError Cmd
  | some (.obj fields) => do
    let accountID ← intField fields "accountId"
    let bookID ← intField fields "bookId"
    pure (.returnBook accountID bookID)
  | some .null => .ok (.returnBook 0 0)
  | some _ => .error .malformedPayload
  | none => .error .malformedPayload

/-- Phase two of `Invocation.UnmarshalJSON`: switch on the already-extracted
`name`; the two print commands return before touching the payload; an
unrecognized name fails with the unknown-command error without the payload
ever being examined. -/
def decodeByName (name : String) (args : Option Json) : Except DecodeError Cmd :=
  if name = "ADD_BOOK" then decodeAddBookArgs args
  else if name = "ADD_COPIES" then decodeAddCopiesArgs args
  else if name = "REMOVE_COPIES" then decodeRemoveCopiesArgs args
  else if name = "CREATE_ACCOUNT" then decodeCreateAccountArgs args
  else if name = "CHECKOUT_BOOK" then decodeCheckoutBookArgs args
  else if name = "RETURN_BOOK" then decodeReturnBookArgs args
  else if name = "PRINT_CATALOG" then .ok .printCatalog
  else if name = "PRINT_ACCOUNTS" then .ok .printAccounts
  else .error (.unknownCommand name)

/-- The intermediate `Command` struct of phase one: the discriminator string
and the raw, not yet interpreted `arguments` document
(`json.RawMessage`). -/
structure RawCommand where
  name : String
  arguments : Option Json

/-- Phase one of `Invocation.UnmarshalJSON`: unmarshal the record into the
`Command` struct (a missing `name` reads as `""`, a missing `arguments`
leaves the raw message nil). -/
def decodeRawCommand : Json → Except DecodeError RawCommand
  | .obj fields =>
    match getField fields "name" with
    | none => .ok { name := "", arguments := getField fields "arguments" }
    | some (.str s) => .ok { name := s, arguments := getField fields "arguments" }
    | some .null => .ok { name := "", arguments := getField fields "arguments" }
    | some _ => .error .malformedPayload
  | .null => .ok { name := "", arguments := none }
  | _ => .error .malformedPayload

/-- Method `Invocation.UnmarshalJSON`: both phases. -/
def decodeInvocation (j : Json) : Except DecodeError Cmd := do
  let raw ← decodeRawCommand j
  decodeByName raw.name raw.arguments

/-- An import either fails to decode a record, or a decoded command's
execution returns a store error; both halt the replay. -/
inductive ImportError where
  | decodeFailed (e : DecodeError)
  | execFailed (e : LibError)
deriving DecidableEq, Repr

/-- Method `Library.Import`: decode and execute each record in order, halting on
the first decode or execution error (prior mutations are kept; the final
state is only reported on full success). -/
def importJson (l : Library) : List Json → Except ImportError Library
  | [] => .ok l
  | j :: rest =>
    match decodeInvocation j with
    | .error e => .error (.decodeFailed e)
    | .ok cmd =>
      match execCmd l cmd with
      | (_, some e) => .error (.execFailed e)
      | (l', none) => importJson l' rest

/-- The inner double loop of `Library.Export` over `checkoutsByAccount`. -/
def checkoutCmds : List (Int × List Checkout) → List Cmd
  | [] => []
  | e :: rest =>
    e.2.map (fun c => Cmd.checkoutBook c.AccountID c.BookID) ++ checkoutCmds rest

/-- Method `Library.Export`: one `ADD_BOOK` per catalog entry (with its current
count), one `CREATE_ACCOUNT` per account, one `CHECKOUT_BOOK` per live
checkout, in that order. -/
def exportCmds (l : Library) : List Cmd :=
  l.books.map (fun e => Cmd.addBook e.2.ID e.2.Name e.2.Count)
    ++ l.accounts.map (fun e => Cmd.createAccount e.2.ID e.2.Name)
    ++ checkoutCmds l.checkoutsByAccount

/-- The encoded stream `Library.Export` writes. -/
def exportJson (l : Library) : List Json :=
  (exportCmds l).map encodeInvocation

/-- All live checkouts of a store, read off the by-account index. -/
def allCheckouts : List (Int × List Checkout) → List Checkout
  | [] => []
  | e :: rest => e.2 ++ allCheckouts rest

/-- The live-checkout list of a store. -/
def liveCheckouts (l : Library) : List Checkout :=
  allCheckouts l.checkoutsByAccount

/-- Two stores agree on book records, account records, and the set of live
checkouts (order-independent). -/
def SameState (l1 l2 : Library) : Prop :=
  (∀ k, lookupA l1.books k = lookupA l2.books k) ∧
  (∀ k, lookupA l1.accounts k = lookupA l2.accounts k) ∧
  (∀ c, c ∈ liveCheckouts l1 ↔ c ∈ liveCheckouts l2)

/-- The consistency invariant of reachable stores: unique map keys, records
that carry their own key as `ID`, non-negative copy counts, and a by-account
index whose checkouts carry the right account id, reference existing
accounts and books, number at most 4 per account, and contain no duplicate
book within one account. -/
structure StoreInv (l : Library) : Prop where
  booksKeys : keysNodup l.books
  booksOK : ∀ e ∈ l.books, e.2.ID = e.1 ∧ 0 ≤ e.2.Count
  accountsKeys : keysNodup l.accounts
  accountsOK : ∀ e ∈ l.accounts, e.2.ID = e.1
  cbaKeys : keysNodup l.checkoutsByAccount
  cbaOK : ∀ e ∈ l.checkoutsByAccount,
    (∀ c ∈ e.2, c.AccountID = e.1 ∧ (lookupA l.accounts c.AccountID).isSome ∧
      (lookupA l.books c.BookID).isSome) ∧
    e.2.length ≤ 4 ∧ (e.2.map Checkout.BookID).Nodup

/-- The §8 scenario: a two-copy book, one account, one live checkout. -/
def scenarioCmds : List Cmd :=
  [.addBook 1 "Dune" 2, .createAccount 10 "Ada", .checkoutBook 10 1]

/-- The store the §8 scenario produces. -/
def scenarioStore : Library :=
  run LibNew scenarioCmds

/-- Five books and one account that has checked out books 1–4 (the
checkout limit). -/
def limitCmds : List Cmd :=
  [.addBook 1 "B1" 1, .addBook 2 "B2" 1, .addBook 3 "B3" 1, .addBook 4 "B4" 1,
   .addBook 5 "B5" 1, .createAccount 1 "Ada", .checkoutBook 1 1, .checkoutBook 1 2,
   .checkoutBook 1 3, .checkoutBook 1 4]

/-- The store `limitCmds` produces. -/
def limitStore : Library :=
  run LibNew limitCmds

/-- One book, one account, no checkout. -/
def pairStore : Library :=
  run LibNew [.addBook 1 "B" 1, .createAccount 2 "A"]

/-- A zero-copy book checked out anyway: the `checkout_book` availability
gap. -/
def overdraftCmds : List Cmd :=
  [.addBook 1 "Dune" 0, .createAccount 10 "Ada", .checkoutBook 10 1]

@[simp] theorem lookupA_nil {α : Type} (k : Int) :
    lookupA ([] : List (Int × α)) k = none := rfl

@[simp] theorem lookupA_cons {α : Type} (e : Int × α) (m : List (Int × α)) (k : Int) :
    lookupA (e :: m) k = if e.1 = k then some e.2 else lookupA m k := rfl

theorem lookupA_append_none {α : Type} {m : List (Int × α)} (m' : List (Int × α)) {k : Int}
    (h : lookupA m k = none) : lookupA (m ++ m') k = lookupA m' k := by
  induction m with
  | nil => simp
  | cons e m ih =>
    by_cases hek : e.1 = k
    · simp [hek] at h
    · simp only [lookupA_cons, if_neg hek] at h
      simp [hek, ih h]

theorem lookupA_append_singleton_ne {α : Type} {m : List (Int × α)} {k k' : Int} (v : α)
    (h : k' ≠ k) : lookupA (m ++ [(k, v)]) k' = lookupA m k' := by
  induction m with
  | nil => simp [Ne.symm h]
  | cons e m ih =>
    by_cases hek : e.1 = k'
    · simp [hek]
    · simp [hek, ih]

theorem lookupA_eq_none_iff {α : Type} {m : List (Int × α)} {k : Int} :
    lookupA m k = none ↔ k ∉ m.map Prod.fst := by
  induction m with
  | nil => simp
  | cons e m ih =>
    by_cases hek : e.1 = k
    · simp [hek]
    · simp [hek, ih, Ne.symm hek]

theorem lookupA_mem {α : Type} {m : List (Int × α)} {k : Int} {v : α}
    (h : lookupA m k = some v) : (k, v) ∈ m := by
  induction m with
  | nil => simp at h
  | cons e m ih =>
    obtain ⟨e1, e2⟩ := e
    by_cases hek : e1 = k
    · simp only [lookupA_cons, hek, if_pos rfl] at h
      obtain rfl : e2 = v := by injection h
      subst hek
      exact List.mem_cons_self _ _
    · simp only [lookupA_cons, if_neg hek] at h
      exact List.mem_cons.mpr (Or.inr (ih h))

theorem lookupA_map_set_self {α : Type} {m : List (Int × α)} {k : Int} (v : α)
    (h : (lookupA m k).isSome) :
    lookupA (m.map (fun e => if e.1 = k then (k, v) else e)) k = some v := by
  induction m with
  | nil => simp at h
  | cons e m ih =>
    by_cases hek : e.1 = k
    · simp [hek]
    · have h' : (lookupA m k).isSome := by simpa [hek] using h
      simp [hek, ih h']

theorem lookupA_map_set_ne {α : Type} {m : List (Int × α)} {k k' : Int} {v : α}
    (h : k' ≠ k) :
    lookupA (m.map (fun e => if e.1 = k then (k, v) else e)) k' = lookupA m k' := by
  induction m with
  | nil => simp
  | cons e m ih =>
    by_cases hek : e.1 = k
    · simp [hek, Ne.symm h, ih]
    · simp [hek, ih]

theorem lookupA_setA_self {α : Type} (m : List (Int × α)) (k : Int) (v : α) :
    lookupA (setA m k v) k = some v := by
  unfold setA
  split
  · exact lookupA_map_set_self v (by assumption)
  · rename_i h
    rw [lookupA_append_none _ (Option.not_isSome_iff_eq_none.mp h)]
    simp

theorem lookupA_setA_ne {α : Type} {m : List (Int × α)} {k k' : Int} {v : α}
    (h : k' ≠ k) : lookupA (setA m k v) k' = lookupA m k' := by
  unfold setA
  split
  · exact lookupA_map_set_ne h
  · exact lookupA_append_singleton_ne v h

theorem isSome_lookupA_setA {α : Type} {m : List (Int × α)} {k k' : Int} (v : α)
    (h : (lookupA m k').isSome) : (lookupA (setA m k v) k').isSome := by
  by_cases hkk : k' = k
  · subst hkk; rw [lookupA_setA_self]; rfl
  · rwa [lookupA_setA_ne hkk]

theorem mem_setA {α : Type} {m : List (Int × α)} {k : Int} {v : α} {e : Int × α}
    (h : e ∈ setA m k v) : e = (k, v) ∨ e ∈ m := by
  unfold setA at h
  split at h
  · obtain ⟨a, ha, rfl⟩ := List.mem_map.mp h
    by_cases hak : a.1 = k
    · left; simp [hak]
    · right; simpa [hak] using ha
  · rcases List.mem_append.mp h with h' | h'
    · right; exact h'
    · left; simpa using h'

theorem map_fst_map_set {α : Type} (m : List (Int × α)) (k : Int) (v : α) :
    (m.map (fun e => if e.1 = k then (k, v) else e)).map Prod.fst = m.map Prod.fst := by
  induction m with
  | nil => rfl
  | cons e m ih =>
    by_cases hek : e.1 = k
    · simp [hek, ih]
    · simp [hek, ih]

theorem keysNodup_setA {α : Type} {m : List (Int × α)} {k : Int} (v : α)
    (h : keysNodup m) : keysNodup (setA m k v) := by
  unfold setA
  split
  · unfold keysNodup
    rw [map_fst_map_set]
    exact h
  · rename_i habs
    unfold keysNodup
    rw [List.map_append]
    refine List.Nodup.append h (by simp) ?_
    intro a ha hb
    simp only [List.map_cons, List.map_nil, List.mem_singleton] at hb
    subst hb
    exact (lookupA_eq_none_iff.mp (Option.not_isSome_iff_eq_none.mp habs)) ha

theorem setA_of_lookup_none {α : Type} {m : List (Int × α)} {k : Int} (v : α)
    (h : lookupA m k = none) : setA m k v = m ++ [(k, v)] := by
  simp [setA, h]

theorem map_set_id_of_not_mem {α : Type} {m : List (Int × α)} {k : Int} {v : α}
    (h : k ∉ m.map Prod.fst) : m.map (fun e => if e.1 = k then (k, v) else e) = m := by
  induction m with
  | nil => rfl
  | cons e m ih =>
    simp only [List.map_cons, List.mem_cons, not_or] at h
    simp [Ne.symm h.1, ih h.2]

theorem setA_self_of_lookup {α : Type} {m : List (Int × α)} {k : Int} {v : α}
    (hn : keysNodup m) (h : lookupA m k = some v) : setA m k v = m := by
  unfold setA
  rw [if_pos (by simp [h])]
  induction m with
  | nil => rfl
  | cons e m ih =>
    obtain ⟨e1, e2⟩ := e
    unfold keysNodup at hn
    simp only [List.map_cons, List.nodup_cons] at hn
    by_cases hek : e1 = k
    · subst hek
      simp only [lookupA_cons, if_pos rfl] at h
      obtain rfl : e2 = v := by injection h
      simp only [List.map_cons, if_pos rfl]
      rw [map_set_id_of_not_mem hn.1]
      simp
    · simp only [lookupA_cons, if_neg hek] at h
      simp [hek, ih hn.2 h]

theorem setA_setA {α : Type} (m : List (Int × α)) (k : Int) (v w : α) :
    setA (setA m k v) k w = setA m k w := by
  by_cases hp : (lookupA m k).isSome
  · have h1 : setA m k v = m.map (fun e => if e.1 = k then (k, v) else e) := by
      unfold setA; rw [if_pos hp]
    have h2 : setA m k w = m.map (fun e => if e.1 = k then (k, w) else e) := by
      unfold setA; rw [if_pos hp]
    have hys : (lookupA (m.map (fun e => if e.1 = k then (k, v) else e)) k).isSome := by
      rw [lookupA_map_set_self v hp]; rfl
    rw [h1, h2]
    unfold setA
    rw [if_pos hys, List.map_map]
    apply List.map_congr_left
    intro e _
    by_cases hek : e.1 = k
    · simp [hek]
    · simp [hek]
  · have hnone : lookupA m k = none := Option.not_isSome_iff_eq_none.mp hp
    have h1 : setA m k v = m ++ [(k, v)] := setA_of_lookup_none v hnone
    have h2 : setA m k w = m ++ [(k, w)] := setA_of_lookup_none w hnone
    have hys : (lookupA (m ++ [(k, v)]) k).isSome := by
      rw [lookupA_append_none _ hnone]; simp
    rw [h1, h2]
    unfold setA
    rw [if_pos hys, List.map_append, map_set_id_of_not_mem (lookupA_eq_none_iff.mp hnone)]
    simp

theorem getD_setA_self {α : Type} (m : List (Int × List α)) (k : Int) (v : List α) :
    getD (setA m k v) k = v := by
  simp [getD, lookupA_setA_self]

theorem getD_setA_ne {α : Type} {m : List (Int × List α)} {k k' : Int} {v : List α}
    (h : k' ≠ k) : getD (setA m k v) k' = getD m k' := by
  simp [getD, lookupA_setA_ne h]

theorem matchCheckout_iff {accountID bookID : Int} {c : Checkout} :
    matchCheckout accountID bookID c = true ↔
      c.AccountID = accountID ∧ c.BookID = bookID := by
  simp [matchCheckout]

theorem storeInv_AddBook {l : Library} (h : StoreInv l) (id : Int) (name : String)
    (count : Int) : StoreInv (AddBook l id name count).1 := by
  unfold AddBook
  split
  · exact h
  split
  · exact h
  refine ⟨keysNodup_setA _ h.booksKeys, ?_, h.accountsKeys, h.accountsOK, h.cbaKeys, ?_⟩
  · intro e he
    rcases mem_setA he with rfl | he'
    · refine ⟨rfl, ?_⟩
      show (0 : Int) ≤ count
      omega
    · exact h.booksOK e he'
  · intro e he
    obtain ⟨h1, h2, h3⟩ := h.cbaOK e he
    refine ⟨fun c hc => ?_, h2, h3⟩
    obtain ⟨hc1, hc2, hc3⟩ := h1 c hc
    exact ⟨hc1, hc2, isSome_lookupA_setA _ hc3⟩

theorem storeInv_AddCopies {l : Library} (h : StoreInv l) (id count : Int) :
    StoreInv (AddCopies l id count).1 := by
  unfold AddCopies
  split
  · exact h
  rename_i book hbook
  split
  · exact h
  rename_i hneg
  refine ⟨keysNodup_setA _ h.booksKeys, ?_, h.accountsKeys, h.accountsOK, h.cbaKeys, ?_⟩
  · intro e he
    rcases mem_setA he with rfl | he'
    · obtain ⟨hid, hcnt⟩ := h.booksOK _ (lookupA_mem hbook)
      have hcnt2 : (0 : Int) ≤ book.Count := hcnt
      refine ⟨hid, ?_⟩
      show (0 : Int) ≤ book.Count + count
      omega
    · exact h.booksOK e he'
  · intro e he
    obtain ⟨h1, h2, h3⟩ := h.cbaOK e he
    refine ⟨fun c hc => ?_, h2, h3⟩
    obtain ⟨hc1, hc2, hc3⟩ := h1 c hc
    exact ⟨hc1, hc2, isSome_lookupA_setA _ hc3⟩

theorem storeInv_RemoveCopies {l : Library} (h : StoreInv l) (id count : Int) :
    StoreInv (RemoveCopies l id count).1 := by
  unfold RemoveCopies
  split
  · exact h
  rename_i book hbook
  split
  · exact h
  split
  · exact h
  split
  · exact h
  rename_i hneg hover havail
  refine ⟨keysNodup_setA _ h.booksKeys, ?_, h.accountsKeys, h.accountsOK, h.cbaKeys, ?_⟩
  · intro e he
    rcases mem_setA he with rfl | he'
    · obtain ⟨hid, hcnt⟩ := h.booksOK _ (lookupA_mem hbook)
      have hcnt2 : (0 : Int) ≤ book.Count := hcnt
      refine ⟨hid, ?_⟩
      show (0 : Int) ≤ book.Count - count
      omega
    · exact h.booksOK e he'
  · intro e he
    obtain ⟨h1, h2, h3⟩ := h.cbaOK e he
    refine ⟨fun c hc => ?_, h2, h3⟩
    obtain ⟨hc1, hc2, hc3⟩ := h1 c hc
    exact ⟨hc1, hc2, isSome_lookupA_setA _ hc3⟩

theorem storeInv_CreateAccount {l : Library} (h : StoreInv l) (id : Int)
    (name : String) : StoreInv (CreateAccount l id name).1 := by
  unfold CreateAccount
  split
  · exact h
  refine ⟨h.booksKeys, h.booksOK, keysNodup_setA _ h.accountsKeys, ?_, h.cbaKeys, ?_⟩
  · intro e he
    rcases mem_setA he with rfl | he'
    · rfl
    · exact h.accountsOK e he'
  · intro e he
    obtain ⟨h1, h2, h3⟩ := h.cbaOK e he
    refine ⟨fun c hc => ?_, h2, h3⟩
    obtain ⟨hc1, hc2, hc3⟩ := h1 c hc
    exact ⟨hc1, isSome_lookupA_setA _ hc2, hc3⟩

theorem getD_mem_or_nil {α : Type} (m : List (Int × List α)) (k : Int) :
    getD m k = [] ∨ (k, getD m k) ∈ m := by
  unfold getD
  cases h : lookupA m k with
  | none => left; rfl
  | some zs => right; exact lookupA_mem h

theorem storeInv_CheckoutBook {l : Library} (h : StoreInv l) (accountID bookID : Int) :
    StoreInv (CheckoutBook l accountID bookID).1 := by
  unfold CheckoutBook
  split
  · exact h
  rename_i account hacct
  split
  · exact h
  rename_i book hbook
  split
  · exact h
  rename_i hlim
  split
  · exact h
  rename_i hdup
  have hAID : account.ID = accountID := h.accountsOK _ (lookupA_mem hacct)
  have hBID : book.ID = bookID := (h.booksOK _ (lookupA_mem hbook)).1
  have hxs : ∀ c ∈ getD l.checkoutsByAccount account.ID,
      c.AccountID = account.ID ∧ (lookupA l.accounts c.AccountID).isSome ∧
      (lookupA l.books c.BookID).isSome := by
    rcases getD_mem_or_nil l.checkoutsByAccount account.ID with hx | hx
    · rw [hx]; intro c hc; simp at hc
    · exact fun c hc => (h.cbaOK _ hx).1 c hc
  have hxslen : (getD l.checkoutsByAccount account.ID).length ≤ 4 ∧
      ((getD l.checkoutsByAccount account.ID).map Checkout.BookID).Nodup := by
    rcases getD_mem_or_nil l.checkoutsByAccount account.ID with hx | hx
    · rw [hx]; simp
    · exact (h.cbaOK _ hx).2
  have hnotdup : book.ID ∉ (getD l.checkoutsByAccount account.ID).map Checkout.BookID := by
    intro hmem
    obtain ⟨c, hc, hceq⟩ := List.mem_map.mp hmem
    apply hdup
    rw [List.any_eq_true]
    exact ⟨c, hc, matchCheckout_iff.mpr ⟨(hxs c hc).1, hceq⟩⟩
  refine ⟨h.booksKeys, h.booksOK, h.accountsKeys, h.accountsOK, keysNodup_setA _ h.cbaKeys, ?_⟩
  intro e he
  rcases mem_setA he with rfl | he'
  · refine ⟨?_, ?_, ?_⟩
    · intro c hc
      rcases List.mem_append.mp hc with hc' | hc'
      · exact hxs c hc'
      · simp only [List.mem_singleton] at hc'
        subst hc'
        refine ⟨rfl, ?_, ?_⟩
        · show (lookupA l.accounts account.ID).isSome
          rw [hAID, hacct]; rfl
        · show (lookupA l.books book.ID).isSome
          rw [hBID, hbook]; rfl
    · simp only [List.length_append, List.length_cons, List.length_nil]
      omega
    · rw [List.map_append]
      refine List.Nodup.append hxslen.2 (by simp) ?_
      intro a ha hb
      simp only [List.map_cons, List.map_nil, List.mem_singleton] at hb
      subst hb
      exact hnotdup ha
  · exact h.cbaOK e he'

theorem storeInv_ReturnBook {l : Library} (h : StoreInv l) (accountID bookID : Int) :
    StoreInv (ReturnBook l accountID bookID).1 := by
  unfold ReturnBook
  split
  · exact h
  rename_i account hacct
  split
  · exact h
  rename_i book hbook
  split
  · exact h
  have hxs : ∀ c ∈ getD l.checkoutsByAccount account.ID,
      c.AccountID = account.ID ∧ (lookupA l.accounts c.AccountID).isSome ∧
      (lookupA l.books c.BookID).isSome := by
    rcases getD_mem_or_nil l.checkoutsByAccount account.ID with hx | hx
    · rw [hx]; intro c hc; simp at hc
    · exact fun c hc => (h.cbaOK _ hx).1 c hc
  have hxslen : (getD l.checkoutsByAccount account.ID).length ≤ 4 ∧
      ((getD l.checkoutsByAccount account.ID).map Checkout.BookID).Nodup := by
    rcases getD_mem_or_nil l.checkoutsByAccount account.ID with hx | hx
    · rw [hx]; simp
    · exact (h.cbaOK _ hx).2
  refine ⟨h.booksKeys, h.booksOK, h.accountsKeys, h.accountsOK, keysNodup_setA _ h.cbaKeys, ?_⟩
  intro e he
  rcases mem_setA he with rfl | he'
  · refine ⟨?_, ?_, ?_⟩
    · intro c hc
      exact hxs c (List.mem_of_mem_filter hc)
    · exact le_trans (List.length_filter_le _ _) hxslen.1
    · exact List.Nodup.sublist (List.Sublist.map _ (List.filter_sublist _)) hxslen.2
  · exact h.cbaOK e he'

theorem storeInv_LibNew : StoreInv LibNew := by
  refine ⟨?_, ?_, ?_, ?_, ?_, ?_⟩ <;> simp [LibNew, keysNodup]

theorem storeInv_step {l : Library} (h : StoreInv l) (c : Cmd) : StoreInv (step l c) := by
  cases c with
  | addBook id name count => exact storeInv_AddBook h id name count
  | addCopies id count => exact storeInv_AddCopies h id count
  | removeCopies id count => exact storeInv_RemoveCopies h id count
  | createAccount id name => exact storeInv_CreateAccount h id name
  | checkoutBook accountID bookID => exact storeInv_CheckoutBook h accountID bookID
  | returnBook accountID bookID => exact storeInv_ReturnBook h accountID bookID
  | printCatalog => exact h
  | printAccounts => exact h

theorem storeInv_run {l : Library} (h : StoreInv l) (cs : List Cmd) :
    StoreInv (run l cs) := by
  induction cs generalizing l with
  | nil => exact h
  | cons c cs ih => exact ih (storeInv_step h c)

theorem storeInv_reachable {l : Library} (h : Reachable l) : StoreInv l := by
  obtain ⟨cs, rfl⟩ := h
  exact storeInv_run storeInv_LibNew cs

theorem AddBook_success {l : Library} {id : Int} (name : String) {count : Int}
    (habs : lookupA l.books id = none) (hcnt : 0 ≤ count) :
    AddBook l id name count =
      ({ l with books := l.books ++ [(id, { ID := id, Name := name, Count := count })] },
        none) := by
  unfold AddBook
  rw [habs]
  simp only [Option.isSome_none, Bool.false_eq_true, if_false]
  rw [if_neg (by omega : ¬ count < 0), setA_of_lookup_none _ habs]

theorem CreateAccount_success {l : Library} {id : Int} (name : String)
    (habs : lookupA l.accounts id = none) :
    CreateAccount l id name =
      ({ l with accounts := l.accounts ++ [(id, { ID := id, Name := name })] }, none) := by
  unfold CreateAccount
  rw [habs]
  simp only [Option.isSome_none, Bool.false_eq_true, if_false]
  rw [setA_of_lookup_none _ habs]

theorem CheckoutBook_success {l : Library} {accountID bookID : Int}
    {account : Account} {book : Book}
    (hacct : lookupA l.accounts accountID = some account)
    (hbook : lookupA l.books bookID = some book)
    (hlim : (getD l.checkoutsByAccount account.ID).length < 4)
    (hdup : ∀ c ∈ getD l.checkoutsByAccount account.ID,
      ¬(c.AccountID = account.ID ∧ c.BookID = book.ID)) :
    CheckoutBook l accountID bookID =
      ({ l with
          checkoutsByAccount :=
            setA l.checkoutsByAccount account.ID
              (getD l.checkoutsByAccount account.ID ++
                [{ AccountID := account.ID, BookID := book.ID }]),
          checkoutsByBook :=
            setA l.checkoutsByBook book.ID
              (getD l.checkoutsByBook book.ID ++
                [{ AccountID := account.ID, BookID := book.ID }]) }, none) := by
  unfold CheckoutBook
  rw [hacct, hbook]
  dsimp only
  rw [if_neg (by omega : ¬ 4 ≤ (getD l.checkoutsByAccount account.ID).length)]
  rw [if_neg ?_]
  simp only [List.any_eq_true, not_exists]
  intro c
  rw [not_and]
  intro hc hmc
  exact hdup c hc (matchCheckout_iff.mp hmc)

theorem CheckoutBook_limit {l : Library} {accountID bookID : Int}
    {account : Account} {book : Book}
    (hacct : lookupA l.accounts accountID = some account)
    (hbook : lookupA l.books bookID = some book)
    (hlim : 4 ≤ (getD l.checkoutsByAccount account.ID).length) :
    CheckoutBook l accountID bookID = (l, some .checkoutLimitExceeded) := by
  unfold CheckoutBook
  rw [hacct, hbook]
  dsimp only
  rw [if_pos hlim]

theorem CheckoutBook_dup {l : Library} {accountID bookID : Int}
    {account : Account} {book : Book}
    (hacct : lookupA l.accounts accountID = some account)
    (hbook : lookupA l.books bookID = some book)
    (hlim : (getD l.checkoutsByAccount account.ID).length < 4)
    (hdup : ∃ c ∈ getD l.checkoutsByAccount account.ID,
      c.AccountID = account.ID ∧ c.BookID = book.ID) :
    CheckoutBook l accountID bookID = (l, some .duplicateCheckout) := by
  unfold CheckoutBook
  rw [hacct, hbook]
  dsimp only
  rw [if_neg (by omega : ¬ 4 ≤ (getD l.checkoutsByAccount account.ID).length)]
  rw [if_pos ?_]
  rw [List.any_eq_true]
  obtain ⟨c, hc, h1, h2⟩ := hdup
  exact ⟨c, hc, matchCheckout_iff.mpr ⟨h1, h2⟩⟩

theorem ReturnBook_success {l : Library} {accountID bookID : Int}
    {account : Account} {book : Book}
    (hacct : lookupA l.accounts accountID = some account)
    (hbook : lookupA l.books bookID = some book)
    (hmem : ∃ c ∈ getD l.checkoutsByAccount account.ID,
      c.AccountID = account.ID ∧ c.BookID = book.ID) :
    ReturnBook l accountID bookID =
      ({ l with
          checkoutsByAccount :=
            setA l.checkoutsByAccount account.ID
              ((getD l.checkoutsByAccount account.ID).filter
                (fun c => !matchCheckout account.ID book.ID c)),
          checkoutsByBook :=
            setA l.checkoutsByBook book.ID
              ((getD l.checkoutsByBook book.ID).filter
                (fun c => !matchCheckout account.ID book.ID c)) }, none) := by
  unfold ReturnBook
  rw [hacct, hbook]
  dsimp only
  rw [if_neg ?_]
  rw [Bool.not_eq_true', Bool.not_eq_false, List.any_eq_true]
  obtain ⟨c, hc, h1, h2⟩ := hmem
  exact ⟨c, hc, matchCheckout_iff.mpr ⟨h1, h2⟩⟩

theorem ReturnBook_notExist {l : Library} {accountID bookID : Int}
    {account : Account} {book : Book}
    (hacct : lookupA l.accounts accountID = some account)
    (hbook : lookupA l.books bookID = some book)
    (hnone : ∀ c ∈ getD l.checkoutsByAccount account.ID,
      ¬(c.AccountID = account.ID ∧ c.BookID = book.ID)) :
    ReturnBook l accountID bookID = (l, some .checkoutNotExist) := by
  unfold ReturnBook
  rw [hacct, hbook]
  dsimp only
  rw [if_pos ?_]
  rw [Bool.not_eq_true', List.any_eq_false]
  intro c hc hmc
  exact hnone c hc (matchCheckout_iff.mp hmc)

theorem getD_eq_nil_of_none {α : Type} {m : List (Int × List α)} {k : Int}
    (h : lookupA m k = none) : getD m k = [] := by
  unfold getD
  rw [h]
  rfl

theorem getD_eq_of_lookup {α : Type} {m : List (Int × List α)} {k : Int} {v : List α}
    (h : lookupA m k = some v) : getD m k = v := by
  unfold getD
  rw [h]
  rfl

theorem decode_encode (c : Cmd) : decodeInvocation (encodeInvocation c) = .ok c := by
  cases c <;> rfl

theorem importJson_map_encode (cs : List Cmd) : ∀ l : Library,
    importJson l (cs.map encodeInvocation) =
      (runE l cs).mapError ImportError.execFailed := by
  induction cs with
  | nil => intro l; rfl
  | cons c cs ih =>
    intro l
    show importJson l (encodeInvocation c :: cs.map encodeInvocation) = _
    unfold importJson runE
    rw [decode_encode c]
    dsimp only
    cases hx : execCmd l c with
    | mk l' err =>
      cases err with
      | none =>
        dsimp only
        exact ih l'
      | some e => rfl

theorem runE_cons (l : Library) (c : Cmd) (cs : List Cmd) :
    runE l (c :: cs) =
      match execCmd l c with
      | (_, some e) => .error e
      | (l', none) => runE l' cs := rfl

theorem runE_append (xs : List Cmd) : ∀ (ys : List Cmd) (l : Library),
    runE l (xs ++ ys) = (runE l xs).bind (fun l' => runE l' ys) := by
  induction xs with
  | nil => intro ys l; rfl
  | cons c xs ih =>
    intro ys l
    rw [List.cons_append, runE_cons, runE_cons]
    cases hx : execCmd l c with
    | mk l' err =>
      cases err with
      | none =>
        dsimp only
        exact ih ys l'
      | some e => rfl

theorem runE_addBooks (bs : List (Int × Book)) : ∀ l0 : Library,
    (∀ e ∈ bs, e.2.ID = e.1 ∧ 0 ≤ e.2.Count) →
    (∀ e ∈ bs, lookupA l0.books e.1 = none) →
    keysNodup bs →
    runE l0 (bs.map (fun e => Cmd.addBook e.2.ID e.2.Name e.2.Count)) =
      .ok { l0 with books := l0.books ++ bs } := by
  induction bs with
  | nil =>
    intro l0 _ _ _
    simp only [List.map_nil, List.append_nil]
    rfl
  | cons e bs ih =>
    intro l0 hOK habs hnd
    obtain ⟨k, b⟩ := e
    obtain ⟨bid, bname, bcnt⟩ := b
    have h1 : bid = k := (hOK _ (List.mem_cons_self _ _)).1
    subst h1
    have h2 : (0 : Int) ≤ bcnt := (hOK _ (List.mem_cons_self _ _)).2
    have h3 : lookupA l0.books bid = none := habs _ (List.mem_cons_self _ _)
    unfold keysNodup at hnd
    simp only [List.map_cons, List.nodup_cons] at hnd
    show runE l0 (Cmd.addBook bid bname bcnt :: _) = _
    unfold runE
    rw [show execCmd l0 (Cmd.addBook bid bname bcnt) =
        ({ l0 with books := l0.books ++ [(bid, ⟨bid, bname, bcnt⟩)] }, none) from
      AddBook_success bname h3 h2]
    dsimp only
    rw [ih _ (fun e he => hOK e (List.mem_cons_of_mem _ he))
        (fun e he => ?_) hnd.2]
    · rw [List.append_assoc]
      rfl
    · show lookupA (l0.books ++ [(bid, ⟨bid, bname, bcnt⟩)]) e.1 = none
      rw [lookupA_append_none _ (habs e (List.mem_cons_of_mem _ he))]
      have hne : e.1 ≠ bid := by
        intro hcontra
        exact hnd.1 (hcontra ▸ List.mem_map_of_mem Prod.fst he)
      simp [Ne.symm hne]

theorem runE_createAccounts (as_ : List (Int × Account)) : ∀ l0 : Library,
    (∀ e ∈ as_, e.2.ID = e.1) →
    (∀ e ∈ as_, lookupA l0.accounts e.1 = none) →
    keysNodup as_ →
    runE l0 (as_.map (fun e => Cmd.createAccount e.2.ID e.2.Name)) =
      .ok { l0 with accounts := l0.accounts ++ as_ } := by
  induction as_ with
  | nil =>
    intro l0 _ _ _
    simp only [List.map_nil, List.append_nil]
    rfl
  | cons e as_ ih =>
    intro l0 hOK habs hnd
    obtain ⟨k, a⟩ := e
    obtain ⟨aid, aname⟩ := a
    have h1 : aid = k := hOK _ (List.mem_cons_self _ _)
    subst h1
    have h3 : lookupA l0.accounts aid = none := habs _ (List.mem_cons_self _ _)
    unfold keysNodup at hnd
    simp only [List.map_cons, List.nodup_cons] at hnd
    show runE l0 (Cmd.createAccount aid aname :: _) = _
    unfold runE
    rw [show execCmd l0 (Cmd.createAccount aid aname) =
        ({ l0 with accounts := l0.accounts ++ [(aid, ⟨aid, aname⟩)] }, none) from
      CreateAccount_success aname h3]
    dsimp only
    rw [ih _ (fun e he => hOK e (List.mem_cons_of_mem _ he))
        (fun e he => ?_) hnd.2]
    · rw [List.append_assoc]
      rfl
    · show lookupA (l0.accounts ++ [(aid, ⟨aid, aname⟩)]) e.1 = none
      rw [lookupA_append_none _ (habs e (List.mem_cons_of_mem _ he))]
      have hne : e.1 ≠ aid := by
        intro hcontra
        exact hnd.1 (hcontra ▸ List.mem_map_of_mem Prod.fst he)
      simp [Ne.symm hne]

theorem runE_checkouts_account (cs : List Checkout) : ∀ (l0 : Library) (k : Int)
    (account : Account) (pre : List Checkout),
    lookupA l0.accounts k = some account →
    account.ID = k →
    (∀ c ∈ cs, c.AccountID = k ∧
      ∃ book : Book, lookupA l0.books c.BookID = some book ∧ book.ID = c.BookID) →
    lookupA l0.checkoutsByAccount k = some pre →
    (pre ++ cs).length ≤ 4 →
    ((pre ++ cs).map Checkout.BookID).Nodup →
    keysNodup l0.checkoutsByAccount →
    ∃ cbb' : List (Int × List Checkout),
      runE l0 (cs.map (fun c => Cmd.checkoutBook c.AccountID c.BookID)) =
        .ok { l0 with
                checkoutsByAccount := setA l0.checkoutsByAccount k (pre ++ cs),
                checkoutsByBook := cbb' } := by
  induction cs with
  | nil =>
    intro l0 k account pre hacct hAID hcs hpre hlen hnd hkn
    refine ⟨l0.checkoutsByBook, ?_⟩
    simp only [List.map_nil, List.append_nil]
    rw [setA_self_of_lookup hkn hpre]
    rfl
  | cons c cs ih =>
    intro l0 k account pre hacct hAID hcs hpre hlen hnd hkn
    obtain ⟨cb, ca⟩ := c
    obtain ⟨hcAID, book, hbook, hbID⟩ := hcs _ (List.mem_cons_self _ _)
    have hca : k = ca := hcAID.symm
    subst hca
    have hbID' : book.ID = cb := hbID
    have hgetD : getD l0.checkoutsByAccount k = pre := getD_eq_of_lookup hpre
    have hlen' : pre.length < 4 := by
      rw [List.length_append, List.length_cons] at hlen
      omega
    have hnd2 := hnd
    rw [List.map_append, List.nodup_append] at hnd2
    obtain ⟨hndpre, hndcs, hdisj⟩ := hnd2
    have hlim2 : (getD l0.checkoutsByAccount account.ID).length < 4 := by
      rw [hAID, hgetD]; exact hlen'
    have hdup2 : ∀ c' ∈ getD l0.checkoutsByAccount account.ID,
        ¬(c'.AccountID = account.ID ∧ c'.BookID = book.ID) := by
      rw [hAID, hgetD]
      intro c' hc' hx
      exact hdisj (List.mem_map_of_mem Checkout.BookID hc')
        (by
          rw [hx.2, hbID']
          exact List.mem_map_of_mem Checkout.BookID (List.mem_cons_self _ _))
    have hacct' : lookupA l0.accounts (Checkout.mk cb k).AccountID = some account := hacct
    have hstep := CheckoutBook_success hacct' hbook hlim2 hdup2
    rw [hAID, hbID', hgetD] at hstep
    rw [List.map_cons, runE_cons]
    rw [show execCmd l0 (Cmd.checkoutBook (Checkout.mk cb k).AccountID
        (Checkout.mk cb k).BookID) = _ from hstep]
    dsimp only
    obtain ⟨cbb2, hrec⟩ := ih
      { l0 with
          checkoutsByAccount := setA l0.checkoutsByAccount k (pre ++ [Checkout.mk cb k]),
          checkoutsByBook := setA l0.checkoutsByBook cb (getD l0.checkoutsByBook cb ++ [Checkout.mk cb k]) }
      k account (pre ++ [Checkout.mk cb k])
      hacct hAID
      (fun c' hc' => hcs c' (List.mem_cons_of_mem _ hc'))
      (lookupA_setA_self _ _ _)
      (by rw [List.append_assoc, List.singleton_append]; exact hlen)
      (by rw [List.append_assoc, List.singleton_append]; exact hnd)
      (keysNodup_setA _ hkn)
    refine ⟨cbb2, ?_⟩
    rw [hrec]
    rw [show setA (setA l0.checkoutsByAccount k (pre ++ [Checkout.mk cb k])) k
        ((pre ++ [Checkout.mk cb k]) ++ cs) =
        setA l0.checkoutsByAccount k ((pre ++ [Checkout.mk cb k]) ++ cs) from
      setA_setA _ _ _ _]
    rw [List.append_assoc, List.singleton_append]

theorem runE_checkoutCmds (m : List (Int × List Checkout)) : ∀ l0 : Library,
    (∀ e ∈ m, ∀ c ∈ e.2, c.AccountID = e.1 ∧
        (∃ account : Account, lookupA l0.accounts e.1 = some account ∧ account.ID = e.1) ∧
        (∃ book : Book, lookupA l0.books c.BookID = some book ∧ book.ID = c.BookID)) →
    (∀ e ∈ m, e.2.length ≤ 4 ∧ (e.2.map Checkout.BookID).Nodup) →
    (∀ e ∈ m, lookupA l0.checkoutsByAccount e.1 = none) →
    keysNodup m →
    keysNodup l0.checkoutsByAccount →
    ∃ cbb' : List (Int × List Checkout),
      runE l0 (checkoutCmds m) =
        .ok { l0 with
                checkoutsByAccount :=
                  l0.checkoutsByAccount ++ m.filter (fun e => !e.2.isEmpty),
                checkoutsByBook := cbb' } := by
  induction m with
  | nil =>
    intro l0 _ _ _ _ _
    refine ⟨l0.checkoutsByBook, ?_⟩
    simp only [checkoutCmds, List.filter_nil, List.append_nil]
    rfl
  | cons e m ih =>
    intro l0 hOK hlen habs hndm hkn
    obtain ⟨k, cs⟩ := e
    unfold keysNodup at hndm
    simp only [List.map_cons, List.nodup_cons] at hndm
    cases cs with
    | nil =>
      obtain ⟨cbb2, hrec⟩ := ih l0
        (fun e he => hOK e (List.mem_cons_of_mem _ he))
        (fun e he => hlen e (List.mem_cons_of_mem _ he))
        (fun e he => habs e (List.mem_cons_of_mem _ he))
        hndm.2 hkn
      refine ⟨cbb2, ?_⟩
      show runE l0 (checkoutCmds m) = _
      rw [hrec]
      have hfil : ((k, ([] : List Checkout)) :: m).filter (fun e => !e.2.isEmpty) =
          m.filter (fun e => !e.2.isEmpty) := by
        simp [List.filter_cons]
      rw [hfil]
    | cons c cs' =>
      obtain ⟨cb, ca⟩ := c
      obtain ⟨hcAID, ⟨account, hacct, hAID⟩, book, hbook, hbID⟩ :=
        hOK _ (List.mem_cons_self _ _) _ (List.mem_cons_self _ _)
      have hca : k = ca := hcAID.symm
      subst hca
      have hbID' : book.ID = cb := hbID
      have habs0 : lookupA l0.checkoutsByAccount k = none :=
        habs _ (List.mem_cons_self _ _)
      have hgetD0 : getD l0.checkoutsByAccount k = [] := getD_eq_nil_of_none habs0
      obtain ⟨hlen0, hnd0⟩ := hlen _ (List.mem_cons_self _ _)
      have hlim2 : (getD l0.checkoutsByAccount account.ID).length < 4 := by
        rw [hAID, hgetD0]; simp
      have hdup2 : ∀ c' ∈ getD l0.checkoutsByAccount account.ID,
          ¬(c'.AccountID = account.ID ∧ c'.BookID = book.ID) := by
        rw [hAID, hgetD0]
        intro c' hc'
        simp at hc'
      have hacct' : lookupA l0.accounts (Checkout.mk cb k).AccountID = some account := hacct
      have hstep := CheckoutBook_success hacct' hbook hlim2 hdup2
      rw [hAID, hbID', hgetD0, List.nil_append] at hstep
      obtain ⟨cbb2, hrec1⟩ := runE_checkouts_account cs'
        { l0 with
            checkoutsByAccount := setA l0.checkoutsByAccount k [Checkout.mk cb k],
            checkoutsByBook :=
              setA l0.checkoutsByBook cb (getD l0.checkoutsByBook cb ++ [Checkout.mk cb k]) }
        k account [Checkout.mk cb k]
        hacct hAID
        (fun c' hc' =>
          ⟨(hOK _ (List.mem_cons_self _ _) c' (List.mem_cons_of_mem _ hc')).1,
            (hOK _ (List.mem_cons_self _ _) c' (List.mem_cons_of_mem _ hc')).2.2⟩)
        (lookupA_setA_self _ _ _)
        (by rw [List.singleton_append]; exact hlen0)
        (by rw [List.singleton_append]; exact hnd0)
        (keysNodup_setA _ hkn)
      rw [show setA (setA l0.checkoutsByAccount k [Checkout.mk cb k]) k
          ([Checkout.mk cb k] ++ cs') =
          setA l0.checkoutsByAccount k ([Checkout.mk cb k] ++ cs') from setA_setA _ _ _ _,
        List.singleton_append] at hrec1
      obtain ⟨cbb3, hrec2⟩ := ih
        { l0 with
            checkoutsByAccount := setA l0.checkoutsByAccount k (Checkout.mk cb k :: cs'),
            checkoutsByBook := cbb2 }
        (fun e he => hOK e (List.mem_cons_of_mem _ he))
        (fun e he => hlen e (List.mem_cons_of_mem _ he))
        (fun e he => by
          show lookupA (setA l0.checkoutsByAccount k (Checkout.mk cb k :: cs')) e.1 = none
          have hne : e.1 ≠ k := fun hcontra =>
            hndm.1 (hcontra ▸ List.mem_map_of_mem Prod.fst he)
          rw [lookupA_setA_ne hne]
          exact habs e (List.mem_cons_of_mem _ he))
        hndm.2
        (keysNodup_setA _ hkn)
      refine ⟨cbb3, ?_⟩
      show runE l0 ((Checkout.mk cb k :: cs').map
        (fun c => Cmd.checkoutBook c.AccountID c.BookID) ++ checkoutCmds m) = _
      rw [List.map_cons, List.cons_append, runE_cons]
      rw [show execCmd l0 (Cmd.checkoutBook (Checkout.mk cb k).AccountID
          (Checkout.mk cb k).BookID) = _ from hstep]
      dsimp only
      rw [runE_append, hrec1]
      show runE _ (checkoutCmds m) = _
      rw [hrec2]
      rw [show setA l0.checkoutsByAccount k (Checkout.mk cb k :: cs') =
          l0.checkoutsByAccount ++ [(k, Checkout.mk cb k :: cs')] from
        setA_of_lookup_none _ habs0]
      rw [List.append_assoc, List.singleton_append]
      have hfil : ((k, Checkout.mk cb k :: cs') :: m).filter (fun e => !e.2.isEmpty) =
          (k, Checkout.mk cb k :: cs') :: m.filter (fun e => !e.2.isEmpty) := by
        simp [List.filter_cons]
      rw [hfil]

theorem allCheckouts_filter (m : List (Int × List Checkout)) :
    allCheckouts (m.filter (fun e => !e.2.isEmpty)) = allCheckouts m := by
  induction m with
  | nil => rfl
  | cons e m ih =>
    obtain ⟨k, cs⟩ := e
    cases cs with
    | nil => simpa [List.filter_cons, allCheckouts] using ih
    | cons c cs' => simp [List.filter_cons, allCheckouts, ih]

theorem exceptBind_ok {α β ε : Type} (a : α) (f : α → Except ε β) :
    (Except.ok a : Except ε α).bind f = f a := rfl

theorem exceptMapError_ok {α ε ε' : Type} (a : α) (f : ε → ε') :
    (Except.ok a : Except ε α).mapError f = .ok a := rfl

theorem roundtrip_of_storeInv {l : Library} (h : StoreInv l) :
    ∃ l' : Library, importJson LibNew (exportJson l) = .ok l' ∧
      l'.books = l.books ∧ l'.accounts = l.accounts ∧
      liveCheckouts l' = liveCheckouts l := by
  have h1 : runE LibNew (l.books.map (fun e => Cmd.addBook e.2.ID e.2.Name e.2.Count)) =
      .ok ⟨l.books, [], [], []⟩ :=
    runE_addBooks l.books LibNew h.booksOK (fun e _ => rfl) h.booksKeys
  have h2 : runE ⟨l.books, [], [], []⟩
      (l.accounts.map (fun e => Cmd.createAccount e.2.ID e.2.Name)) =
      .ok ⟨l.books, l.accounts, [], []⟩ :=
    runE_createAccounts l.accounts ⟨l.books, [], [], []⟩ h.accountsOK (fun e _ => rfl)
      h.accountsKeys
  have hOK3 : ∀ e ∈ l.checkoutsByAccount, ∀ c ∈ e.2, c.AccountID = e.1 ∧
      (∃ account : Account,
        lookupA (Library.mk l.books l.accounts [] []).accounts e.1 = some account ∧
          account.ID = e.1) ∧
      (∃ book : Book,
        lookupA (Library.mk l.books l.accounts [] []).books c.BookID = some book ∧
          book.ID = c.BookID) := by
    intro e he c hc
    obtain ⟨hAID, hacct, hbook⟩ := (h.cbaOK e he).1 c hc
    refine ⟨hAID, ?_, ?_⟩
    · obtain ⟨a, ha⟩ := Option.isSome_iff_exists.mp hacct
      rw [hAID] at ha
      exact ⟨a, ha, h.accountsOK _ (lookupA_mem ha)⟩
    · obtain ⟨b, hbk⟩ := Option.isSome_iff_exists.mp hbook
      exact ⟨b, hbk, (h.booksOK _ (lookupA_mem hbk)).1⟩
  obtain ⟨cbb', h3⟩ := runE_checkoutCmds l.checkoutsByAccount
    (Library.mk l.books l.accounts [] [])
    hOK3
    (fun e he => (h.cbaOK e he).2)
    (fun e _ => rfl)
    h.cbaKeys
    (by simp [keysNodup])
  refine ⟨⟨l.books, l.accounts,
      l.checkoutsByAccount.filter (fun e => !e.2.isEmpty), cbb'⟩, ?_, rfl, rfl, ?_⟩
  · show importJson LibNew ((exportCmds l).map encodeInvocation) = _
    rw [importJson_map_encode]
    show (runE LibNew
      ((l.books.map (fun e => Cmd.addBook e.2.ID e.2.Name e.2.Count) ++
        l.accounts.map (fun e => Cmd.createAccount e.2.ID e.2.Name)) ++
        checkoutCmds l.checkoutsByAccount)).mapError ImportError.execFailed = _
    rw [runE_append, runE_append, h1, exceptBind_ok, h2, exceptBind_ok, h3,
      exceptMapError_ok]
    rfl
  · show allCheckouts (l.checkoutsByAccount.filter (fun e => !e.2.isEmpty)) =
      allCheckouts l.checkoutsByAccount
    exact allCheckouts_filter _

/-- Claim C1 (code bug): the spec's global invariant 2 — live checkouts of a
book never exceed `Book.Count` — is violated by the code: `CheckoutBook`
never compares the book's live-checkout count against `Book.Count` (even
though the comment on `checkoutsByBook` says the index exists to "prevent
checkout of book with no available copies").  Concretely, adding a book with
0 copies, creating an account, and checking the book out all succeed, after
which the book has 1 live checkout but `Count = 0`. -/
theorem c1_overdraft_checkout :
    ∃ l : Library, runE LibNew overdraftCmds = .ok l ∧
      ∃ book : Book, lookupA l.books 1 = some book ∧
        book.Count < ((getD l.checkoutsByBook 1).length : Int) := by
  refine ⟨run LibNew overdraftCmds, rfl, { ID := 1, Name := "Dune", Count := 0 }, rfl, ?_⟩
  decide

/-- Claim C2: for every reachable store, exporting and importing into a
fresh empty store succeeds and reproduces the book records, the account
records, and the set of live checkouts (order-independent). -/
theorem c2_export_import_roundtrip {l : Library} (h : Reachable l) :
    ∃ l' : Library, importJson LibNew (exportJson l) = .ok l' ∧ SameState l' l := by
  obtain ⟨l', himp, hb, ha, hc⟩ := roundtrip_of_storeInv (storeInv_reachable h)
  exact ⟨l', himp, fun k => by rw [hb], fun k => by rw [ha], fun c => by rw [hc]⟩

/-- Witness for C2 at the concrete reachable store of the §8 scenario. -/
theorem c2_witness :
    ∃ l' : Library, importJson LibNew (exportJson scenarioStore) = .ok l' ∧
      SameState l' scenarioStore :=
  c2_export_import_roundtrip ⟨scenarioCmds, rfl⟩

/-- Claim C3: for an existing book, `RemoveCopies` fails with an
invalid-argument error (negative count, or count over `Book.Count`), fails
with the insufficient-availability error when the count exceeds the
available copies (`Count` minus live checkouts), and otherwise succeeds,
decrementing `Count`; and in the §8 scenario (Count 2, one live checkout)
`remove_copies(1,1)` succeeds while the immediately following
`remove_copies(1,1)` fails with the availability error. -/
theorem c3_removeCopies_spec :
    (∀ (l : Library) (id count : Int) (book : Book),
      lookupA l.books id = some book →
      ((count < 0 ∨ book.Count < count) →
        RemoveCopies l id count = (l, some .cannotRemoveNegativeCopies) ∨
        RemoveCopies l id count = (l, some .cannotRemoveMoreThanExist)) ∧
      (0 ≤ count → count ≤ book.Count →
        book.Count - ((getD l.checkoutsByBook book.ID).length : Int) < count →
        RemoveCopies l id count = (l, some .insufficientAvailableCopies)) ∧
      (0 ≤ count → count ≤ book.Count →
        count ≤ book.Count - ((getD l.checkoutsByBook book.ID).length : Int) →
        (RemoveCopies l id count).2 = none ∧
        lookupA (RemoveCopies l id count).1.books id =
          some { book with Count := book.Count - count })) ∧
    lookupA scenarioStore.books 1 = some { ID := 1, Name := "Dune", Count := 2 } ∧
    (getD scenarioStore.checkoutsByBook 1).length = 1 ∧
    (RemoveCopies scenarioStore 1 1).2 = none ∧
    RemoveCopies (RemoveCopies scenarioStore 1 1).1 1 1 =
      ((RemoveCopies scenarioStore 1 1).1, some .insufficientAvailableCopies) := by
  refine ⟨?_, rfl, rfl, rfl, rfl⟩
  intro l id count book hbook
  have hmain : RemoveCopies l id count =
      (if count < 0 then (l, some .cannotRemoveNegativeCopies)
       else if book.Count < count then (l, some .cannotRemoveMoreThanExist)
       else if book.Count - ((getD l.checkoutsByBook book.ID).length : Int) < count then
         (l, some .insufficientAvailableCopies)
       else ({ l with books := setA l.books id { book with Count := book.Count - count } },
         none)) := by
    unfold RemoveCopies
    rw [hbook]
  refine ⟨?_, ?_, ?_⟩
  · intro h
    by_cases h1 : count < 0
    · left
      rw [hmain, if_pos h1]
    · right
      have h2 : book.Count < count := by
        rcases h with h | h
        · exact absurd h h1
        · exact h
      rw [hmain, if_neg h1, if_pos h2]
  · intro h0 h1 h2
    rw [hmain, if_neg (by omega), if_neg (by omega), if_pos h2]
  · intro h0 h1 h2
    rw [hmain, if_neg (by omega), if_neg (by omega), if_neg (by omega)]
    exact ⟨rfl, lookupA_setA_self _ _ _⟩

/-- Witness for C3: the success case of `RemoveCopies` at the §8 store. -/
theorem c3_witness :
    (RemoveCopies scenarioStore 1 1).2 = none ∧
    lookupA (RemoveCopies scenarioStore 1 1).1.books 1 =
      some { ID := 1, Name := "Dune", Count := 1 } :=
  (c3_removeCopies_spec.1 scenarioStore 1 1 { ID := 1, Name := "Dune", Count := 2 }
    rfl).2.2 (by decide) (by decide) (by decide)

/-- Claim C4: a `CheckoutBook` call for an existing account that already
holds 4 live checkouts and an existing book fails with the checkout-limit
error, leaving the store unchanged; and on every reachable store no account
holds more than 4 live checkouts. -/
theorem c4_checkout_limit :
    (∀ (l : Library) (accountID bookID : Int) (account : Account) (book : Book),
      lookupA l.accounts accountID = some account →
      lookupA l.books bookID = some book →
      (getD l.checkoutsByAccount account.ID).length = 4 →
      CheckoutBook l accountID bookID = (l, some .checkoutLimitExceeded)) ∧
    (∀ l : Library, Reachable l → ∀ k : Int,
      (getD l.checkoutsByAccount k).length ≤ 4) := by
  constructor
  · intro l accountID bookID account book ha hb hlen
    exact CheckoutBook_limit ha hb (by omega)
  · intro l hr k
    have h := storeInv_reachable hr
    rcases getD_mem_or_nil l.checkoutsByAccount k with hx | hx
    · rw [hx]; simp
    · exact ((h.cbaOK _ hx).2).1

/-- Witness for C4: account 1 of `limitStore` holds 4 checkouts; checking
out the fifth (existing) book fails with the limit error. -/
theorem c4_witness :
    CheckoutBook limitStore 1 5 = (limitStore, some .checkoutLimitExceeded) ∧
    (getD limitStore.checkoutsByAccount 1).length ≤ 4 :=
  ⟨c4_checkout_limit.1 limitStore 1 5 { ID := 1, Name := "Ada" }
      { ID := 5, Name := "B5", Count := 1 } rfl rfl (by decide),
    c4_checkout_limit.2 limitStore ⟨limitCmds, rfl⟩ 1⟩

/-- Claim C5, counterexample: at `limitStore` the pair (account 1, book 1)
has a live checkout, yet a second `CheckoutBook` for that pair fails with
the checkout-limit error, not the duplicate-checkout error — the limit
check precedes the duplicate check. -/
theorem c5_counterexample :
    (∃ c ∈ getD limitStore.checkoutsByAccount 1, c.AccountID = 1 ∧ c.BookID = 1) ∧
    CheckoutBook limitStore 1 1 = (limitStore, some .checkoutLimitExceeded) ∧
    CheckoutBook limitStore 1 1 ≠ (limitStore, some .duplicateCheckout) := by
  refine ⟨?_, rfl, ?_⟩ <;> decide

/-- Claim C5, amended: a second `CheckoutBook` for a pair with a live
checkout fails with the duplicate-checkout error provided the account holds
fewer than 4 live checkouts; when it already holds 4 the call fails with
the limit error instead; the store is unchanged either way, and on every
reachable store no account holds two live checkouts of the same book. -/
theorem c5_duplicate_checkout :
    (∀ (l : Library) (accountID bookID : Int) (account : Account) (book : Book),
      lookupA l.accounts accountID = some account →
      lookupA l.books bookID = some book →
      (getD l.checkoutsByAccount account.ID).length < 4 →
      (∃ c ∈ getD l.checkoutsByAccount account.ID,
        c.AccountID = account.ID ∧ c.BookID = book.ID) →
      CheckoutBook l accountID bookID = (l, some .duplicateCheckout)) ∧
    (∀ (l : Library) (accountID bookID : Int) (account : Account) (book : Book),
      lookupA l.accounts accountID = some account →
      lookupA l.books bookID = some book →
      4 ≤ (getD l.checkoutsByAccount account.ID).length →
      CheckoutBook l accountID bookID = (l, some .checkoutLimitExceeded)) ∧
    (∀ l : Library, Reachable l →
      ∀ e ∈ l.checkoutsByAccount, (e.2.map Checkout.BookID).Nodup) := by
  refine ⟨?_, ?_, ?_⟩
  · intro l accountID bookID account book ha hb hlt hdup
    exact CheckoutBook_dup ha hb hlt hdup
  · intro l accountID bookID account book ha hb hge
    exact CheckoutBook_limit ha hb hge
  · intro l hr e he
    exact ((storeInv_reachable hr).cbaOK e he).2.2

/-- Witness for C5 (amended): at the §8 store, account 10 (1 live checkout)
checking out book 1 again fails with the duplicate error; the single entry
of the by-account index has pairwise-distinct book ids. -/
theorem c5_witness :
    CheckoutBook scenarioStore 10 1 = (scenarioStore, some .duplicateCheckout) ∧
    (((10, [Checkout.mk 1 10]) : Int × List Checkout).2.map Checkout.BookID).Nodup :=
  ⟨c5_duplicate_checkout.1 scenarioStore 10 1 { ID := 10, Name := "Ada" }
      { ID := 1, Name := "Dune", Count := 2 } rfl rfl (by decide) (by decide),
    c5_duplicate_checkout.2.2 scenarioStore ⟨scenarioCmds, rfl⟩
      (10, [Checkout.mk 1 10]) (by decide)⟩

/-- Claim C6: when account and book exist and the pair has no live
checkout, running `CheckoutBook` then `ReturnBook` for the pair restores
the contents of both checkout indices exactly (pointwise at every key),
and a second `ReturnBook` for the pair then fails with the
checkout-not-exist error.  (When the account is already at the 4-checkout
limit the checkout fails and both returns fail, which also leaves the
indices unchanged.) -/
theorem c6_checkout_return_roundtrip :
    ∀ (l : Library) (accountID bookID : Int) (account : Account) (book : Book),
      lookupA l.accounts accountID = some account →
      lookupA l.books bookID = some book →
      (∀ c ∈ getD l.checkoutsByAccount account.ID,
        ¬(c.AccountID = account.ID ∧ c.BookID = book.ID)) →
      (∀ c ∈ getD l.checkoutsByBook book.ID,
        ¬(c.AccountID = account.ID ∧ c.BookID = book.ID)) →
      ∀ l2 : Library,
        l2 = (ReturnBook (CheckoutBook l accountID bookID).1 accountID bookID).1 →
        (∀ k, getD l2.checkoutsByAccount k = getD l.checkoutsByAccount k) ∧
        (∀ k, getD l2.checkoutsByBook k = getD l.checkoutsByBook k) ∧
        ReturnBook l2 accountID bookID = (l2, some .checkoutNotExist) := by
  intro l accountID bookID account book ha hb hnoA hnoB l2 hl2
  by_cases hlim : 4 ≤ (getD l.checkoutsByAccount account.ID).length
  · rw [CheckoutBook_limit ha hb hlim] at hl2
    dsimp only at hl2
    rw [ReturnBook_notExist ha hb hnoA] at hl2
    dsimp only at hl2
    subst hl2
    exact ⟨fun k => rfl, fun k => rfl, ReturnBook_notExist ha hb hnoA⟩
  · push_neg at hlim
    rw [CheckoutBook_success ha hb hlim hnoA] at hl2
    dsimp only at hl2
    have hgA : getD (setA l.checkoutsByAccount account.ID
        (getD l.checkoutsByAccount account.ID ++
          [{ AccountID := account.ID, BookID := book.ID }])) account.ID =
        getD l.checkoutsByAccount account.ID ++
          [{ AccountID := account.ID, BookID := book.ID }] :=
      getD_setA_self _ _ _
    have hmem : ∃ c ∈ getD (setA l.checkoutsByAccount account.ID
        (getD l.checkoutsByAccount account.ID ++
          [{ AccountID := account.ID, BookID := book.ID }])) account.ID,
        c.AccountID = account.ID ∧ c.BookID = book.ID := by
      rw [hgA]
      exact ⟨{ AccountID := account.ID, BookID := book.ID },
        List.mem_append.mpr (Or.inr (List.mem_singleton.mpr rfl)), rfl, rfl⟩
    rw [ReturnBook_success (l := { l with
        checkoutsByAccount := setA l.checkoutsByAccount account.ID
          (getD l.checkoutsByAccount account.ID ++
            [{ AccountID := account.ID, BookID := book.ID }]),
        checkoutsByBook := setA l.checkoutsByBook book.ID
          (getD l.checkoutsByBook book.ID ++
            [{ AccountID := account.ID, BookID := book.ID }]) })
      ha hb hmem] at hl2
    dsimp only at hl2
    rw [hgA] at hl2
    have hgB : getD (setA l.checkoutsByBook book.ID
        (getD l.checkoutsByBook book.ID ++
          [{ AccountID := account.ID, BookID := book.ID }])) book.ID =
        getD l.checkoutsByBook book.ID ++
          [{ AccountID := account.ID, BookID := book.ID }] :=
      getD_setA_self _ _ _
    rw [hgB] at hl2
    have hsingle : [Checkout.mk book.ID account.ID].filter
        (fun c => !matchCheckout account.ID book.ID c) = [] := by
      rw [List.filter_singleton]
      rw [show matchCheckout account.ID book.ID (Checkout.mk book.ID account.ID) = true from
        matchCheckout_iff.mpr ⟨rfl, rfl⟩]
      rfl
    have hkeepA : (getD l.checkoutsByAccount account.ID).filter
        (fun c => !matchCheckout account.ID book.ID c) =
        getD l.checkoutsByAccount account.ID := by
      apply List.filter_eq_self.mpr
      intro c hc
      cases hmc : matchCheckout account.ID book.ID c
      · rfl
      · exact absurd (matchCheckout_iff.mp hmc) (hnoA c hc)
    have hkeepB : (getD l.checkoutsByBook book.ID).filter
        (fun c => !matchCheckout account.ID book.ID c) =
        getD l.checkoutsByBook book.ID := by
      apply List.filter_eq_self.mpr
      intro c hc
      cases hmc : matchCheckout account.ID book.ID c
      · rfl
      · exact absurd (matchCheckout_iff.mp hmc) (hnoB c hc)
    have hfA : (getD l.checkoutsByAccount account.ID ++
        [Checkout.mk book.ID account.ID]).filter
          (fun c => !matchCheckout account.ID book.ID c) =
        getD l.checkoutsByAccount account.ID := by
      rw [List.filter_append, hsingle, List.append_nil, hkeepA]
    have hfB : (getD l.checkoutsByBook book.ID ++
        [Checkout.mk book.ID account.ID]).filter
          (fun c => !matchCheckout account.ID book.ID c) =
        getD l.checkoutsByBook book.ID := by
      rw [List.filter_append, hsingle, List.append_nil, hkeepB]
    rw [hfA, hfB, setA_setA, setA_setA] at hl2
    subst hl2
    have hkA : ∀ k, getD (setA l.checkoutsByAccount account.ID
        (getD l.checkoutsByAccount account.ID)) k = getD l.checkoutsByAccount k := by
      intro k
      by_cases hk : k = account.ID
      · subst hk
        exact getD_setA_self _ _ _
      · exact getD_setA_ne hk
    have hkB : ∀ k, getD (setA l.checkoutsByBook book.ID
        (getD l.checkoutsByBook book.ID)) k = getD l.checkoutsByBook k := by
      intro k
      by_cases hk : k = book.ID
      · subst hk
        exact getD_setA_self _ _ _
      · exact getD_setA_ne hk
    refine ⟨hkA, hkB, ?_⟩
    refine ReturnBook_notExist ha hb ?_
    show ∀ c ∈ getD (setA l.checkoutsByAccount account.ID
      (getD l.checkoutsByAccount account.ID)) account.ID, _
    rw [hkA account.ID]
    exact hnoA

/-- Witness for C6 at `pairStore` (book 1, account 2, no checkouts):
checkout then return restores both indices and the second return fails. -/
theorem c6_witness :
    getD ((ReturnBook (CheckoutBook pairStore 2 1).1 2 1).1).checkoutsByAccount 2 =
      getD pairStore.checkoutsByAccount 2 ∧
    getD ((ReturnBook (CheckoutBook pairStore 2 1).1 2 1).1).checkoutsByBook 1 =
      getD pairStore.checkoutsByBook 1 ∧
    ReturnBook ((ReturnBook (CheckoutBook pairStore 2 1).1 2 1).1) 2 1 =
      ((ReturnBook (CheckoutBook pairStore 2 1).1 2 1).1, some .checkoutNotExist) := by
  obtain ⟨h1, h2, h3⟩ := c6_checkout_return_roundtrip pairStore 2 1
    { ID := 2, Name := "A" } { ID := 1, Name := "B", Count := 1 }
    rfl rfl (by decide) (by decide) _ rfl
  exact ⟨h1 2, h2 1, h3⟩

/-- Claim C7: `AddBook` with an id already in the catalog fails with the
already-exists error for every name and every count (the duplicate-id check
precedes the negative-count check) and leaves the store unchanged. -/
theorem c7_addBook_duplicate :
    ∀ (l : Library) (id : Int) (name : String) (count : Int),
      (lookupA l.books id).isSome →
      AddBook l id name count = (l, some .bookAlreadyExists) := by
  intro l id name count h
  unfold AddBook
  rw [if_pos h]

/-- Witness for C7: re-adding book 1 of `pairStore` with a negative count
still reports already-exists. -/
theorem c7_witness :
    AddBook pairStore 1 "Other" (-5) = (pairStore, some .bookAlreadyExists) :=
  c7_addBook_duplicate pairStore 1 "Other" (-5) (by decide)

/-- Claim C8: decoding an encoded command record whose `name` is none of the
eight fixed tokens fails with the unknown-command error, whatever the
`arguments` payload holds — the discriminator switch rejects the name
before the payload is ever parsed. -/
theorem c8_unknown_command :
    ∀ (fields : List (String × Json)) (nm : String),
      getField fields "name" = some (.str nm) →
      nm ∉ ["ADD_BOOK", "ADD_COPIES", "REMOVE_COPIES", "CREATE_ACCOUNT",
            "CHECKOUT_BOOK", "RETURN_BOOK", "PRINT_CATALOG", "PRINT_ACCOUNTS"] →
      decodeInvocation (.obj fields) = .error (.unknownCommand nm) := by
  intro fields nm hname hmem
  simp only [List.mem_cons, List.not_mem_nil, or_false, not_or] at hmem
  obtain ⟨h1, h2, h3, h4, h5, h6, h7, h8⟩ := hmem
  unfold decodeInvocation decodeRawCommand
  dsimp only
  rw [hname]
  show decodeByName nm (getField fields "arguments") = _
  unfold decodeByName
  rw [if_neg h1, if_neg h2, if_neg h3, if_neg h4, if_neg h5, if_neg h6, if_neg h7,
    if_neg h8]

/-- Witness for C8: an unknown name over a payload that is not even an
object still reports unknown-command. -/
theorem c8_witness :
    decodeInvocation (.obj [("name", .str "DROP_BOOK"),
      ("arguments", .str "not an object")]) =
      .error (.unknownCommand "DROP_BOOK") :=
  c8_unknown_command [("name", .str "DROP_BOOK"), ("arguments", .str "not an object")]
    "DROP_BOOK" rfl (by decide)

/-- Claim C9: decoding the §8 `ADD_BOOK` record yields `AddBook{1,"Dune",3}`
and re-encoding that variant yields the identical record structure (here
literally the same document, fields in the order Go's marshaller emits). -/
theorem c9_addBook_decode_encode :
    decodeInvocation (.obj [("name", .str "ADD_BOOK"),
      ("arguments", .obj [("id", .num 1), ("name", .str "Dune"), ("count", .num 3)])]) =
      .ok (.addBook 1 "Dune" 3) ∧
    encodeInvocation (.addBook 1 "Dune" 3) =
      .obj [("name", .str "ADD_BOOK"),
        ("arguments", .obj [("id", .num 1), ("name", .str "Dune"), ("count", .num 3)])] :=
  ⟨rfl, rfl⟩

/-- Claim C10: every mutating store operation is atomic with respect to
failure — whenever it returns an error, the store it leaves behind is
exactly the store it was given. -/
theorem c10_error_atomicity :
    ∀ l : Library,
      (∀ (id : Int) (name : String) (count : Int),
        (AddBook l id name count).2.isSome → (AddBook l id name count).1 = l) ∧
      (∀ id count : Int, (AddCopies l id count).2.isSome → (AddCopies l id count).1 = l) ∧
      (∀ id count : Int,
        (RemoveCopies l id count).2.isSome → (RemoveCopies l id count).1 = l) ∧
      (∀ (id : Int) (name : String),
        (CreateAccount l id name).2.isSome → (CreateAccount l id name).1 = l) ∧
      (∀ accountID bookID : Int,
        (CheckoutBook l accountID bookID).2.isSome →
          (CheckoutBook l accountID bookID).1 = l) ∧
      (∀ accountID bookID : Int,
        (ReturnBook l accountID bookID).2.isSome →
          (ReturnBook l accountID bookID).1 = l) := by
  intro l
  refine ⟨?_, ?_, ?_, ?_, ?_, ?_⟩
  · intro id name count
    unfold AddBook
    split
    · intro _; rfl
    split
    · intro _; rfl
    · intro h; simp at h
  · intro id count
    unfold AddCopies
    split
    · intro _; rfl
    split
    · intro _; rfl
    · intro h; simp at h
  · intro id count
    unfold RemoveCopies
    split
    · intro _; rfl
    split
    · intro _; rfl
    split
    · intro _; rfl
    split
    · intro _; rfl
    · intro h; simp at h
  · intro id name
    unfold CreateAccount
    split
    · intro _; rfl
    · intro h; simp at h
  · intro accountID bookID
    unfold CheckoutBook
    split
    · intro _; rfl
    split
    · intro _; rfl
    split
    · intro _; rfl
    split
    · intro _; rfl
    · intro h; simp at h
  · intro accountID bookID
    unfold ReturnBook
    split
    · intro _; rfl
    split
    · intro _; rfl
    split
    · intro _; rfl
    · intro h; simp at h

/-- Witness for C10: one failing call per operation on `pairStore`, each
leaving the store untouched. -/
theorem c10_witness :
    (AddBook pairStore 1 "X" (-1)).1 = pairStore ∧
    (AddCopies pairStore 99 1).1 = pairStore ∧
    (RemoveCopies pairStore 1 5).1 = pairStore ∧
    (CreateAccount pairStore 2 "Y").1 = pairStore ∧
    (CheckoutBook pairStore 5 1).1 = pairStore ∧
    (ReturnBook pairStore 2 1).1 = pairStore :=
  ⟨(c10_error_atomicity pairStore).1 1 "X" (-1) (by decide),
    (c10_error_atomicity pairStore).2.1 99 1 (by decide),
    (c10_error_atomicity pairStore).2.2.1 1 5 (by decide),
    (c10_error_atomicity pairStore).2.2.2.1 2 "Y" (by decide),
    (c10_error_atomicity pairStore).2.2.2.2.1 5 1 (by decide),
    (c10_error_atomicity pairStore).2.2.2.2.2 2 1 (by decide)⟩
